import Mathlib

/-!
# A model of the `blugelabs/query_string` query-string parser

This file embeds the semantic layer of the query-string parser:

* the query-builder functions of `query_string_parser.go`
  (`queryStringStringToken`, `queryStringStringTokenFuzzy`,
  `queryStringNumberToken`, `queryStringPhraseToken`, the four range
  builders, `queryStringParseBoost`, `queryStringSetBoost`),
* the reduction actions of the goyacc grammar `query_string.y`
  (`searchPart`, `searchPrefix`, `searchSuffix`, `searchBase`),
* the orchestrator `ParseQueryString` together with the panic-recovering
  drive wrapper `doParse` and the shared `lexerWrapper` state.

Go strings are modelled as lists of characters (`GoStr`); the few places
where Go slices strings by byte index only ever cut at the ASCII
character `/`, so the character-level view agrees with the byte-level
one.  The external library calls (`strconv.ParseFloat`, `time.Parse`,
and the final `fmt.Errorf` that format-processes the joined error
messages) are kept abstract: every definition that uses them takes the
library function as an explicit argument (`Except`-returning for the
parsers, with `.error` standing for a non-nil Go error; a plain string
transformer for `fmt.Errorf` applied to a format string with no
operands).  Float64 and time values are carried opaquely by `ℚ`;
nothing in this development computes with them beyond passing them into
query nodes.  Go's `int(float64)` conversion is exact truncation toward
zero only while the truncated value fits the 64-bit `int`; out of that
range the Go specification makes the result implementation-dependent,
modelled here by an arbitrary function forced into the `int64` range.
A Go `nil` query value is `Option.none`; a Go panic is surfaced as
`Option.none` from `queryStringStringToken` and as the `Option GoStr`
payload component of the abstract parser drive consumed by `doParse`.
-/

namespace QueryStringModel

/-- Go strings, viewed as lists of characters. -/
abbrev GoStr := List Char

/-- A bound of a `bluge` numeric-range query: either a concrete float64
value (carried opaquely as a rational) or one of the two sentinel
constants `bluge.MinNumeric` / `bluge.MaxNumeric` used for unbounded
sides. -/
inductive NumBound where
  | val (v : ℚ)
  | minNumeric
  | maxNumeric
deriving DecidableEq, Repr

/-- A bound of a `bluge` date-range query: either a concrete parsed time
(carried opaquely as a rational) or the zero-value timestamp
`time.Time{}` used for unbounded sides. -/
inductive DateBound where
  | timeVal (t : ℚ)
  | zeroTime
deriving DecidableEq, Repr

/-- The `bluge` query node variants constructed by this package.
`matchQ` covers both plain and fuzzy matches, mirroring
`bluge.MatchQuery` whose fuzziness is `0` unless `SetFuzziness` was
called.  `boost` is `none` until `SetBoost` is called.  The lists inside
`booleanQ` hold `Option Query` because a Go `[]bluge.Query` slice can
contain `nil` interface values. -/
inductive Query where
  | matchQ (field text : GoStr) (fuzziness : Int) (boost : Option ℚ)
  | matchPhraseQ (field text : GoStr) (boost : Option ℚ)
  | regexpQ (field pattern : GoStr) (boost : Option ℚ)
  | wildcardQ (field pattern : GoStr) (boost : Option ℚ)
  | numericRangeQ (field : GoStr) (min max : NumBound)
      (minInclusive maxInclusive : Bool) (boost : Option ℚ)
  | dateRangeQ (field : GoStr) (min max : DateBound)
      (minInclusive maxInclusive : Bool) (boost : Option ℚ)
  | booleanQ (should must mustNot : List (Option Query)) (boost : Option ℚ)
  | matchNoneQ

/-- The text produced by Go's `%T` format verb for each concrete query
type constructed in this package. -/
def goTypeName : Query → GoStr
  | .matchQ _ _ _ _ => ("*bluge.MatchQuery").toList
  | .matchPhraseQ _ _ _ => ("*bluge.MatchPhraseQuery").toList
  | .regexpQ _ _ _ => ("*bluge.RegexpQuery").toList
  | .wildcardQ _ _ _ => ("*bluge.WildcardQuery").toList
  | .numericRangeQ _ _ _ _ _ _ => ("*bluge.NumericRangeQuery").toList
  | .dateRangeQ _ _ _ _ _ _ => ("*bluge.DateRangeQuery").toList
  | .booleanQ _ _ _ _ => ("*bluge.BooleanQuery").toList
  | .matchNoneQ => ("*bluge.MatchNoneQuery").toList

/-- Result of `%T` applied to a possibly-nil `bluge.Query` interface value:
`nil` prints as `<nil>`. -/
def goTypeNameOpt : Option Query → GoStr
  | none => ("<nil>").toList
  | some q => goTypeName q

/-- Exact truncation toward zero of a float64 value carried as a
rational: `num / den` in truncated (T-) division. -/
def goTruncToInt (v : ℚ) : Int := Int.tdiv v.num v.den

/-- Go's conversion `int(f)` of a float64 to an integer on the 64-bit
platforms this package targets: truncation toward zero while the
truncated value is representable in `int64`; when it is not, the Go
specification says the result is implementation-dependent, so the model
takes an arbitrary implementation function `ovf` and only forces its
answer into the `int64` range (which every concrete `int` value
inhabits). -/
def goIntOfFloat (ovf : ℚ → Int) (v : ℚ) : Int :=
  if -(2 ^ 63) ≤ goTruncToInt v ∧ goTruncToInt v < 2 ^ 63 then
    goTruncToInt v
  else
    (ovf v) % (2 ^ 64) - 2 ^ 63

/-- Model of `queryStringStringToken` from `query_string_parser.go`.  A payload
that both starts and ends with `/` is sliced as `str[1:len(str)-1]` and
wrapped in a regexp query; the slice expression panics (modelled as
`none`) when the two slash checks see the same single character, i.e.
when the payload is exactly `"/"`.  Otherwise a payload containing `*`
or `?` becomes a wildcard query and anything else a match query. -/
def queryStringStringToken (field str : GoStr) : Option Query :=
  if (['/']).isPrefixOf str && List.isSuffixOf (['/']) str then
    if 2 ≤ str.length then
      some (.regexpQ field ((str.drop 1).dropLast) none)
    else
      none
  else if str.any (fun c => c = '*' || c = '?') then
    some (.wildcardQ field str none)
  else
    some (.matchQ field str 0 none)

/-- Model of `queryStringStringTokenFuzzy` from `query_string_parser.go`: parse
the fuzziness text via `strconv.ParseFloat` (abstracted as `pf`), fail
with `invalid fuzziness value: …` on a parse error, otherwise build a
match query whose fuzziness is the int conversion `int(fuzzy)` of the
parsed float (`goIntOfFloat`, with `ovf` the implementation-dependent
out-of-range behaviour). -/
def queryStringStringTokenFuzzy (pf : GoStr → Except GoStr ℚ)
    (ovf : ℚ → Int) (field str fuzziness : GoStr) : Except GoStr Query :=
  match pf fuzziness with
  | .error e => .error (("invalid fuzziness value: ").toList ++ e)
  | .ok f => .ok (.matchQ field str (goIntOfFloat ovf f) none)

/-- Model of `queryStringNumberToken` from `query_string_parser.go`: a match
query on the raw numeral text and, when `strconv.ParseFloat` succeeds,
an inclusive numeric range `[v,v]`, both added as should-clauses of a
fresh boolean query; a parse failure is the error
`error parsing number: …`. -/
def queryStringNumberToken (pf : GoStr → Except GoStr ℚ)
    (field str : GoStr) : Except GoStr Query :=
  match pf str with
  | .error e => .error (("error parsing number: ").toList ++ e)
  | .ok v =>
      .ok (.booleanQ
        [some (.matchQ field str 0 none),
         some (.numericRangeQ field (.val v) (.val v) true true none)]
        [] [] none)

/-- Model of `queryStringPhraseToken` from `query_string_parser.go`. -/
def queryStringPhraseToken (field str : GoStr) : Query :=
  .matchPhraseQ field str none

/-- Model of `queryStringNumericRangeGreaterThanOrEqual` from
`query_string_parser.go`: min is the parsed value with inclusivity
`orEqual`, max is the `bluge.MaxNumeric` sentinel, inclusive. -/
def queryStringNumericRangeGreaterThanOrEqual (pf : GoStr → Except GoStr ℚ)
    (field str : GoStr) (orEqual : Bool) : Except GoStr Query :=
  match pf str with
  | .error e => .error (("error parsing number: ").toList ++ e)
  | .ok mn => .ok (.numericRangeQ field (.val mn) .maxNumeric orEqual true none)

/-- Model of `queryStringNumericRangeLessThanOrEqual` from
`query_string_parser.go`: max is the parsed value with inclusivity
`orEqual`, min is the `bluge.MinNumeric` sentinel, inclusive. -/
def queryStringNumericRangeLessThanOrEqual (pf : GoStr → Except GoStr ℚ)
    (field str : GoStr) (orEqual : Bool) : Except GoStr Query :=
  match pf str with
  | .error e => .error (("error parsing number: ").toList ++ e)
  | .ok mx => .ok (.numericRangeQ field .minNumeric (.val mx) true orEqual none)

/-- Model of `queryTimeFromString` from `query_string_parser.go`: parse the
phrase with the configured date format via `time.Parse` (abstracted as
`tp`). -/
def queryTimeFromString (tp : GoStr → GoStr → Except GoStr ℚ)
    (dateFormat t : GoStr) : Except GoStr ℚ :=
  tp dateFormat t

/-- Model of `queryStringDateRangeGreaterThanOrEqual` from
`query_string_parser.go`: min is the parsed time with inclusivity
`orEqual`, max is the zero-value timestamp sentinel, inclusive. -/
def queryStringDateRangeGreaterThanOrEqual (tp : GoStr → GoStr → Except GoStr ℚ)
    (dateFormat field phrase : GoStr) (orEqual : Bool) : Except GoStr Query :=
  match queryTimeFromString tp dateFormat phrase with
  | .error e => .error (("invalid time: ").toList ++ e)
  | .ok minTime => .ok (.dateRangeQ field (.timeVal minTime) .zeroTime orEqual true none)

/-- Model of `queryStringDateRangeLessThanOrEqual` from
`query_string_parser.go`: max is the parsed time with inclusivity
`orEqual`, min is the zero-value timestamp sentinel, inclusive. -/
def queryStringDateRangeLessThanOrEqual (tp : GoStr → GoStr → Except GoStr ℚ)
    (dateFormat field phrase : GoStr) (orEqual : Bool) : Except GoStr Query :=
  match queryTimeFromString tp dateFormat phrase with
  | .error e => .error (("invalid time: ").toList ++ e)
  | .ok maxTime => .ok (.dateRangeQ field .zeroTime (.timeVal maxTime) true orEqual none)

/-- Model of `queryStringParseBoost` from `query_string_parser.go`. -/
def queryStringParseBoost (pf : GoStr → Except GoStr ℚ)
    (str : GoStr) : Except GoStr ℚ :=
  match pf str with
  | .error e => .error (("invalid boost value: ").toList ++ e)
  | .ok boost => .ok boost

/-- Model of `queryStringSetBoost` from `query_string_parser.go`: the type switch
sets the boost on the seven boost-capable concrete types and returns
`cannot boost %T` for anything else — including a `nil` interface
value, on which `%T` prints `<nil>`. -/
def queryStringSetBoost (q : Option Query) (b : ℚ) : Except GoStr Query :=
  match q with
  | some (.matchQ f t fz _) => .ok (.matchQ f t fz (some b))
  | some (.regexpQ f p _) => .ok (.regexpQ f p (some b))
  | some (.wildcardQ f p _) => .ok (.wildcardQ f p (some b))
  | some (.booleanQ s m n _) => .ok (.booleanQ s m n (some b))
  | some (.numericRangeQ f mn mx mi ma _) =>
      .ok (.numericRangeQ f mn mx mi ma (some b))
  | some (.matchPhraseQ f t _) => .ok (.matchPhraseQ f t (some b))
  | some (.dateRangeQ f mn mx mi ma _) =>
      .ok (.dateRangeQ f mn mx mi ma (some b))
  | _ => .error (("cannot boost ").toList ++ goTypeNameOpt q)

/-! ## The lexer wrapper and the grammar actions of `query_string.y` -/

/-- The mutable state shared by the grammar actions: the accumulated
error list and the single `bluge.BooleanQuery` result, shown here as its
three clause lists. -/
structure LexerWrapper where
  errs : List GoStr
  should : List (Option Query)
  must : List (Option Query)
  mustNot : List (Option Query)

/-- Model of `newLexerWrapper`: no errors yet, and a fresh empty
`bluge.NewBooleanQuery()` result. -/
def newLexerWrapper : LexerWrapper := ⟨[], [], [], []⟩

/-- The constant `queryShould` of `query_string_parser.go`. -/
def queryShould : Nat := 0

/-- The constant `queryMust` of `query_string_parser.go`. -/
def queryMust : Nat := 1

/-- The constant `queryMustNot` of `query_string_parser.go`. -/
def queryMustNot : Nat := 2

/-- The value of the local `q` in the `searchPart` action of
`query_string.y`: the `searchBase` value unchanged when no boost suffix
is present, otherwise the result of `queryStringSetBoost` — which is the
`nil` returned alongside the error when the boost cannot be set. -/
def clauseValue (base : Option Query) (suf : Option ℚ) : Option Query :=
  match suf with
  | none => base
  | some b =>
      match queryStringSetBoost base b with
      | .ok q => some q
      | .error _ => none

/-- The errors appended by the boost branch of the `searchPart` action:
a failing `queryStringSetBoost` reports its message via `Error`. -/
def clauseErrs (base : Option Query) (suf : Option ℚ) : List GoStr :=
  match suf with
  | none => []
  | some b =>
      match queryStringSetBoost base b with
      | .ok _ => []
      | .error e => [e]

/-- The `searchPart` reduction action of `query_string.y`: apply the
boost suffix (recording any error), then append the clause to the list
selected by the `searchPrefix` value (`queryShould`/`queryMust`/
`queryMustNot`; the Go `switch` appends nothing for any other value). -/
def searchPart (pre : Nat) (base : Option Query) (suf : Option ℚ)
    (st : LexerWrapper) : LexerWrapper :=
  let q := clauseValue base suf
  let errs2 := st.errs ++ clauseErrs base suf
  if pre = queryShould then
    { st with errs := errs2, should := st.should ++ [q] }
  else if pre = queryMust then
    { st with errs := errs2, must := st.must ++ [q] }
  else if pre = queryMustNot then
    { st with errs := errs2, mustNot := st.mustNot ++ [q] }
  else
    { st with errs := errs2 }

/-- The `tNUMBER` / `tSTRING tCOLON posOrNegNumber` alternatives of the
`searchBase` production: call `queryStringNumberToken`, report a
failure via `Error`, and pass the (then `nil`) query up. -/
def searchBaseNumber (pf : GoStr → Except GoStr ℚ) (field str : GoStr)
    (errs : List GoStr) : Option Query × List GoStr :=
  match queryStringNumberToken pf field str with
  | .ok q => (some q, errs)
  | .error e => (none, errs ++ [e])

/-- The `tBOOST` alternative of the `searchSuffix` production: parse the
boost payload; on failure report via `Error` and keep the suffix value
`nil`, on success pass the parsed boost up. -/
def searchSuffix (pf : GoStr → Except GoStr ℚ) (payload : GoStr)
    (errs : List GoStr) : Option ℚ × List GoStr :=
  match queryStringParseBoost pf payload with
  | .error e => (none, errs ++ [e])
  | .ok b => (some b, errs)

/-- Modelled from the spec: the lexer (`query_string_lex.go`, not among
the sources) emits the suffix token after `^` or `~` with the default
numeral text `1` when the suffix is empty, so that an empty boost
defaults to 1.0 and an empty fuzziness to 1. -/
def lexSuffixPayload (raw : GoStr) : GoStr :=
  if raw = [] then ("1").toList else raw

/-- One fully-reduced `searchPart`, threading the error list through
the `searchSuffix` action exactly as the two reductions of
`query_string.y` do in sequence. -/
def reducePart (pf : GoStr → Except GoStr ℚ) (pre : Nat)
    (base : Option Query) (sufPayload : Option GoStr)
    (st : LexerWrapper) : LexerWrapper :=
  let se :=
    match sufPayload with
    | none => ((none : Option ℚ), st.errs)
    | some p => searchSuffix pf p st.errs
  searchPart pre base se.1 { st with errs := se.2 }

/-- A `searchPart` instance as the parser sees it after its
sub-productions have been reduced: the `searchPrefix` value, the
`searchBase` query (possibly `nil` after a builder error), and the
`searchSuffix` boost (possibly absent). -/
structure ParsedPart where
  pre : Nat
  base : Option Query
  suf : Option ℚ

/-- The `searchParts` production: reduce each part in order against the
shared wrapper state. -/
def runParts (parts : List ParsedPart) (st : LexerWrapper) : LexerWrapper :=
  parts.foldl (fun s p => searchPart p.pre p.base p.suf s) st

/-! ## The orchestrator of `query_string_parser.go` -/

/-- An abstract drive of the generated `yyParse` over the wrapper state:
it returns the final state together with `some payload` when the Go code
would panic (the payload being the `%v` rendering of the panic value),
or `none` on a normal return. -/
abbrev ParserDrive := LexerWrapper → LexerWrapper × Option GoStr

/-- Model of `doParse` from `query_string_parser.go`: run the drive; a panic is
recovered and appended to the error list as `parse error: %v`. -/
def doParse (drive : ParserDrive) (st : LexerWrapper) : LexerWrapper :=
  match drive st with
  | (st2, none) => st2
  | (st2, some r) => { st2 with errs := st2.errs ++ [("parse error: ").toList ++ r] }

/-- Model of `ParseQueryString` from `query_string_parser.go`: the empty query
short-circuits to a match-none query before any lexer or parser state
exists; otherwise the parse is driven over a fresh wrapper, a non-empty
error list yields `nil` plus `fmt.Errorf(strings.Join(errs, "\n"))`,
and success yields the boolean result.  The source passes the joined
messages to `fmt.Errorf` as the FORMAT string with no operands, so the
final message is the join as processed by `fmt`'s verb handling (a `%`
verb in a message is mangled, e.g. to `%!d(MISSING)`), not necessarily
the join itself; that external processing is abstracted as `errorf`.
The Go pair `(bluge.Query, error)` is the pair of options, `none`
standing for `nil`. -/
def ParseQueryString (errorf : GoStr → GoStr) (drive : ParserDrive)
    (query : GoStr) : Option Query × Option GoStr :=
  if query = [] then
    (some .matchNoneQ, none)
  else
    let lex := doParse drive newLexerWrapper
    if lex.errs = [] then
      (some (.booleanQ lex.should lex.must lex.mustNot none), none)
    else
      (none, some (errorf (List.intercalate (['\n']) lex.errs)))

/-! ## Theorems -/

/-- C9: parsing the empty input string returns the "match nothing" query
with no error; the result does not depend on the parser drive or on the
error formatter at all, because the shortcut returns before the lexer or
parser exist and before any error is produced. -/
theorem c9_empty_input_shortcut (errorf : GoStr → GoStr) (drive : ParserDrive) :
    ParseQueryString errorf drive [] = (some Query.matchNoneQ, none) := rfl

/-- C8: for a resolved base node carrying a boost suffix, the builder
sets the boost on that exact node for every boost-capable variant
(match — plain or fuzzy —, regexp, wildcard, boolean, numeric range,
match phrase, date range), leaving every other component unchanged; on
any other value (the match-none query, or a nil interface) it reports an
error naming the offending type via `%T`. -/
theorem c8_set_boost_per_variant (b : ℚ) :
    (∀ f t fz bo, queryStringSetBoost (some (Query.matchQ f t fz bo)) b =
      .ok (Query.matchQ f t fz (some b))) ∧
    (∀ f p bo, queryStringSetBoost (some (Query.regexpQ f p bo)) b =
      .ok (Query.regexpQ f p (some b))) ∧
    (∀ f p bo, queryStringSetBoost (some (Query.wildcardQ f p bo)) b =
      .ok (Query.wildcardQ f p (some b))) ∧
    (∀ s m n bo, queryStringSetBoost (some (Query.booleanQ s m n bo)) b =
      .ok (Query.booleanQ s m n (some b))) ∧
    (∀ f mn mx mi ma bo,
      queryStringSetBoost (some (Query.numericRangeQ f mn mx mi ma bo)) b =
        .ok (Query.numericRangeQ f mn mx mi ma (some b))) ∧
    (∀ f t bo, queryStringSetBoost (some (Query.matchPhraseQ f t bo)) b =
      .ok (Query.matchPhraseQ f t (some b))) ∧
    (∀ f mn mx mi ma bo,
      queryStringSetBoost (some (Query.dateRangeQ f mn mx mi ma bo)) b =
        .ok (Query.dateRangeQ f mn mx mi ma (some b))) ∧
    (queryStringSetBoost (some Query.matchNoneQ) b =
      .error (("cannot boost ").toList ++ goTypeName Query.matchNoneQ)) ∧
    (queryStringSetBoost none b =
      .error (("cannot boost ").toList ++ goTypeNameOpt none)) :=
  ⟨fun _ _ _ _ => rfl, fun _ _ _ => rfl, fun _ _ _ => rfl, fun _ _ _ _ => rfl,
   fun _ _ _ _ _ _ => rfl, fun _ _ _ => rfl, fun _ _ _ _ _ _ => rfl, rfl, rfl⟩

/-- C5: a panic raised inside the parser drive is recovered by `doParse`
and converted into an entry appended to the error list, so
`ParseQueryString` on any non-empty input returns a nil tree with a
non-nil error value — the formatted join of the list ending in the
recovered entry — instead of propagating the crash. -/
theorem c5_panic_recovered (errorf : GoStr → GoStr) (drive : ParserDrive)
    (st2 : LexerWrapper) (r : GoStr) (query : GoStr)
    (h : drive newLexerWrapper = (st2, some r)) (hq : query ≠ []) :
    (doParse drive newLexerWrapper).errs =
      st2.errs ++ [("parse error: ").toList ++ r] ∧
    ParseQueryString errorf drive query =
      (none, some (errorf (List.intercalate (['\n'])
        (st2.errs ++ [("parse error: ").toList ++ r])))) := by
  have hdo : doParse drive newLexerWrapper =
      { st2 with errs := st2.errs ++ [("parse error: ").toList ++ r] } := by
    simp [doParse, h]
  refine ⟨by rw [hdo], ?_⟩
  simp only [ParseQueryString, if_neg hq, hdo]
  simp

/-- Witness for C5 at a concrete panicking drive and input. -/
theorem c5_panic_recovered_witness :
    (doParse (fun s => (s, some (("boom").toList))) newLexerWrapper).errs =
      newLexerWrapper.errs ++ [("parse error: ").toList ++ ("boom").toList] ∧
    ParseQueryString (fun s => s) (fun s => (s, some (("boom").toList)))
      (("x").toList) =
      (none, some (List.intercalate (['\n'])
        (newLexerWrapper.errs ++ [("parse error: ").toList ++ ("boom").toList]))) :=
  c5_panic_recovered (fun s => s) _ newLexerWrapper _ _ rfl (by simp)

/-- C4 (amended): whenever the accumulated error list of a parse attempt
is non-empty, `ParseQueryString` returns the nil tree — never a partial
tree — together with a single error produced by passing the
newline-join of all accumulated messages through `fmt.Errorf` as a
format string with no operands; whenever that format processing leaves
the join unchanged (in particular when no message contains a `%` verb)
the error message is exactly the newline join. -/
theorem c4_errorf_join_no_partial_tree (errorf : GoStr → GoStr)
    (drive : ParserDrive) (query : GoStr) (hq : query ≠ [])
    (he : (doParse drive newLexerWrapper).errs ≠ []) :
    ParseQueryString errorf drive query =
      (none, some (errorf (List.intercalate (['\n'])
        (doParse drive newLexerWrapper).errs))) ∧
    (errorf (List.intercalate (['\n']) (doParse drive newLexerWrapper).errs) =
        List.intercalate (['\n']) (doParse drive newLexerWrapper).errs →
      ParseQueryString errorf drive query =
        (none, some (List.intercalate (['\n'])
          (doParse drive newLexerWrapper).errs))) := by
  have h1 : ParseQueryString errorf drive query =
      (none, some (errorf (List.intercalate (['\n'])
        (doParse drive newLexerWrapper).errs))) := by
    simp only [ParseQueryString, if_neg hq, if_neg he]
  exact ⟨h1, fun hid => by rw [h1, hid]⟩

/-- Witness for C4 at a concrete erroring drive, verb-free message and
identity-acting formatter. -/
theorem c4_errorf_join_no_partial_tree_witness :
    ParseQueryString (fun s => s)
      (fun s => ({ s with errs := s.errs ++ [("oops").toList] }, none))
      (("x").toList) =
      (none, some ((fun s => s) (List.intercalate (['\n'])
        (doParse (fun s => ({ s with errs := s.errs ++ [("oops").toList] }, none))
          newLexerWrapper).errs))) ∧
    ((fun s => s) (List.intercalate (['\n'])
        (doParse (fun s => ({ s with errs := s.errs ++ [("oops").toList] }, none))
          newLexerWrapper).errs) =
      List.intercalate (['\n'])
        (doParse (fun s => ({ s with errs := s.errs ++ [("oops").toList] }, none))
          newLexerWrapper).errs →
      ParseQueryString (fun s => s)
        (fun s => ({ s with errs := s.errs ++ [("oops").toList] }, none))
        (("x").toList) =
        (none, some (List.intercalate (['\n'])
          (doParse (fun s => ({ s with errs := s.errs ++ [("oops").toList] }, none))
            newLexerWrapper).errs))) :=
  c4_errorf_join_no_partial_tree (fun s => s) _ _ (by simp)
    (by simp [doParse, newLexerWrapper])

/-- C4 counterexample: with the error list holding the reachable date
path message `invalid time: cannot parse "%d"` (a failing date phrase
embeds the user's text, here containing a format verb), `fmt.Errorf`
format-processes the join and returns the mangled
`invalid time: cannot parse "%!d(MISSING)"`, so the returned error
message is NOT the newline join of the accumulated messages as the
claim states. -/
theorem c4_format_verb_counterexample :
    ParseQueryString
      (fun s => if s = ("invalid time: cannot parse \"%d\"").toList then
        ("invalid time: cannot parse \"%!d(MISSING)\"").toList else s)
      (fun s => ({ s with
        errs := s.errs ++ [("invalid time: cannot parse \"%d\"").toList] }, none))
      (("x").toList) =
      (none, some (("invalid time: cannot parse \"%!d(MISSING)\"").toList)) ∧
    ParseQueryString
      (fun s => if s = ("invalid time: cannot parse \"%d\"").toList then
        ("invalid time: cannot parse \"%!d(MISSING)\"").toList else s)
      (fun s => ({ s with
        errs := s.errs ++ [("invalid time: cannot parse \"%d\"").toList] }, none))
      (("x").toList) ≠
      (none, some (List.intercalate (['\n'])
        (doParse (fun s => ({ s with
          errs := s.errs ++ [("invalid time: cannot parse \"%d\"").toList] }, none))
          newLexerWrapper).errs)) := by
  have h1 : ParseQueryString
      (fun s => if s = ("invalid time: cannot parse \"%d\"").toList then
        ("invalid time: cannot parse \"%!d(MISSING)\"").toList else s)
      (fun s => ({ s with
        errs := s.errs ++ [("invalid time: cannot parse \"%d\"").toList] }, none))
      (("x").toList) =
      (none, some (("invalid time: cannot parse \"%!d(MISSING)\"").toList)) := by
    rfl
  refine ⟨h1, ?_⟩
  rw [h1]
  intro hcontra
  have h2 : (("invalid time: cannot parse \"%!d(MISSING)\"").toList : GoStr) =
      List.intercalate (['\n'])
        (doParse (fun s => ({ s with
          errs := s.errs ++ [("invalid time: cannot parse \"%d\"").toList] }, none))
          newLexerWrapper).errs := by
    have := congrArg (fun p => p.2) hcontra
    simpa using this
  have h3 : List.intercalate (['\n'])
      (doParse (fun s => ({ s with
        errs := s.errs ++ [("invalid time: cannot parse \"%d\"").toList] }, none))
        newLexerWrapper).errs =
      ("invalid time: cannot parse \"%d\"").toList := by
    rfl
  rw [h3] at h2
  exact absurd h2 (by decide)

/-- C1: a pure numeral token (bare or field-qualified) builds a
disjunction — a boolean query whose should list holds exactly the text
match on the raw numeral and the inclusive numeric range `[v,v]` with
`v` the float64 parse of the text — and, reduced as an unprefixed
`searchPart`, that node is appended as a should-clause of the shared
result; when the float64 parse fails, an error is recorded instead and
the base query stays nil. -/
theorem c1_bare_number_disjunction (pf : GoStr → Except GoStr ℚ)
    (field str : GoStr) :
    (∀ v, pf str = .ok v →
      queryStringNumberToken pf field str =
        .ok (Query.booleanQ
          [some (Query.matchQ field str 0 none),
           some (Query.numericRangeQ field (.val v) (.val v) true true none)]
          [] [] none)) ∧
    (∀ q (st : LexerWrapper), queryStringNumberToken pf field str = .ok q →
      searchBaseNumber pf field str st.errs = (some q, st.errs) ∧
      (searchPart queryShould (some q) none st).should = st.should ++ [some q] ∧
      (searchPart queryShould (some q) none st).must = st.must ∧
      (searchPart queryShould (some q) none st).mustNot = st.mustNot) ∧
    (∀ e, pf str = .error e →
      queryStringNumberToken pf field str =
        .error (("error parsing number: ").toList ++ e) ∧
      (searchBaseNumber pf field str []).1 = none ∧
      (searchBaseNumber pf field str []).2 =
        [("error parsing number: ").toList ++ e]) := by
  refine ⟨?_, ?_, ?_⟩
  · intro v hv
    simp [queryStringNumberToken, hv]
  · intro q st hq
    refine ⟨by simp [searchBaseNumber, hq], ?_, ?_, ?_⟩ <;>
      simp [searchPart, queryShould, clauseValue, clauseErrs]
  · intro e he
    refine ⟨?_, ?_, ?_⟩ <;>
      simp [queryStringNumberToken, searchBaseNumber, he]

/-- Witness for C1 at a concrete float parser and numeral. -/
theorem c1_bare_number_disjunction_witness :
    queryStringNumberToken
      (fun s => if s = ("33").toList then .ok (33 : ℚ) else .error (("syn").toList))
      [] (("33").toList) =
      .ok (Query.booleanQ
        [some (Query.matchQ [] (("33").toList) 0 none),
         some (Query.numericRangeQ [] (.val 33) (.val 33) true true none)]
        [] [] none) ∧
    queryStringNumberToken
      (fun s => if s = ("33").toList then .ok (33 : ℚ) else .error (("syn").toList))
      [] (("nope").toList) =
      .error (("error parsing number: ").toList ++ ("syn").toList) := by
  have h := c1_bare_number_disjunction
    (fun s => if s = ("33").toList then .ok (33 : ℚ) else .error (("syn").toList))
    [] (("33").toList)
  have h2 := c1_bare_number_disjunction
    (fun s => if s = ("33").toList then .ok (33 : ℚ) else .error (("syn").toList))
    [] (("nope").toList)
  exact ⟨h.1 33 (by simp), (h2.2.2 (("syn").toList) (by simp)).1⟩

/-- C2: each field-qualified range builder sets the stated bound to the
parsed value with inclusivity equal to the `orEqual` flag the grammar
passes (`false` for the strict operators, `true` for the or-equal ones)
and the opposite unbounded side to the sentinel marked inclusive
(`MaxNumeric`/`MinNumeric` for the numeric path, the zero-value
timestamp for the date path); the numeric path parses via float64 and
the date path parses the phrase with the configured date format, and a
failed parse reports an error. -/
theorem c2_range_builders (pf : GoStr → Except GoStr ℚ)
    (tp : GoStr → GoStr → Except GoStr ℚ)
    (dateFormat field str phrase : GoStr) (orEqual : Bool) :
    (∀ v, pf str = .ok v →
      queryStringNumericRangeGreaterThanOrEqual pf field str orEqual =
        .ok (Query.numericRangeQ field (.val v) .maxNumeric orEqual true none) ∧
      queryStringNumericRangeLessThanOrEqual pf field str orEqual =
        .ok (Query.numericRangeQ field .minNumeric (.val v) true orEqual none)) ∧
    (∀ e, pf str = .error e →
      queryStringNumericRangeGreaterThanOrEqual pf field str orEqual =
        .error (("error parsing number: ").toList ++ e) ∧
      queryStringNumericRangeLessThanOrEqual pf field str orEqual =
        .error (("error parsing number: ").toList ++ e)) ∧
    (∀ t, tp dateFormat phrase = .ok t →
      queryStringDateRangeGreaterThanOrEqual tp dateFormat field phrase orEqual =
        .ok (Query.dateRangeQ field (.timeVal t) .zeroTime orEqual true none) ∧
      queryStringDateRangeLessThanOrEqual tp dateFormat field phrase orEqual =
        .ok (Query.dateRangeQ field .zeroTime (.timeVal t) true orEqual none)) ∧
    (∀ e, tp dateFormat phrase = .error e →
      queryStringDateRangeGreaterThanOrEqual tp dateFormat field phrase orEqual =
        .error (("invalid time: ").toList ++ e) ∧
      queryStringDateRangeLessThanOrEqual tp dateFormat field phrase orEqual =
        .error (("invalid time: ").toList ++ e)) := by
  refine ⟨fun v hv => ⟨?_, ?_⟩, fun e he => ⟨?_, ?_⟩,
    fun t ht => ⟨?_, ?_⟩, fun e he => ⟨?_, ?_⟩⟩ <;>
    simp [queryStringNumericRangeGreaterThanOrEqual,
      queryStringNumericRangeLessThanOrEqual,
      queryStringDateRangeGreaterThanOrEqual,
      queryStringDateRangeLessThanOrEqual,
      queryTimeFromString, *]

/-- Witness for C2 at concrete parsers, valued and failing inputs. -/
theorem c2_range_builders_witness :
    queryStringNumericRangeGreaterThanOrEqual
      (fun s => if s = ("5").toList then .ok (5 : ℚ) else .error (("syn").toList))
      (("field").toList) (("5").toList) false =
      .ok (Query.numericRangeQ (("field").toList) (.val 5) .maxNumeric false true none) ∧
    queryStringNumericRangeLessThanOrEqual
      (fun s => if s = ("5").toList then .ok (5 : ℚ) else .error (("syn").toList))
      (("field").toList) (("nope").toList) true =
      .error (("error parsing number: ").toList ++ ("syn").toList) ∧
    queryStringDateRangeGreaterThanOrEqual
      (fun _ s => if s = ("d").toList then .ok (7 : ℚ) else .error (("bad").toList))
      (("fmt").toList) (("field").toList) (("d").toList) true =
      .ok (Query.dateRangeQ (("field").toList) (.timeVal 7) .zeroTime true true none) ∧
    queryStringDateRangeLessThanOrEqual
      (fun _ s => if s = ("d").toList then .ok (7 : ℚ) else .error (("bad").toList))
      (("fmt").toList) (("field").toList) (("e").toList) false =
      .error (("invalid time: ").toList ++ ("bad").toList) := by
  refine ⟨?_, ?_, ?_, ?_⟩
  · exact ((c2_range_builders _ (fun _ _ => .error []) [] _ _ [] false).1 5 (by simp)).1
  · exact ((c2_range_builders _ (fun _ _ => .error []) [] _ (("nope").toList) [] true).2.1
      (("syn").toList) (by simp)).2
  · exact ((c2_range_builders (fun _ => .error []) _ (("fmt").toList) _ [] (("d").toList) true).2.2.1
      7 (by simp)).1
  · exact ((c2_range_builders (fun _ => .error []) _ (("fmt").toList) _ [] (("e").toList) false).2.2.2
      (("bad").toList) (by simp)).2

/-- C10: `queryStringStringToken` is total for every payload except the
one-character string `/`, where both slash checks accept the same
character and the Go slice `str[1:len(str)-1]` panics; inside
`ParseQueryString` a panicking drive is recovered and reported as a
parse error, a nil tree with a non-nil error value, not a match or
regexp node. -/
theorem c10_slash_slice_panic (errorf : GoStr → GoStr) (field str : GoStr)
    (drive : ParserDrive)
    (st2 : LexerWrapper) (r : GoStr) (query : GoStr)
    (hs : str ≠ ['/'])
    (h : drive newLexerWrapper = (st2, some r)) (hq : query ≠ []) :
    queryStringStringToken field (['/']) = none ∧
    (queryStringStringToken field str).isSome ∧
    (ParseQueryString errorf drive query).1 = none ∧
    (ParseQueryString errorf drive query).2 =
      some (errorf (List.intercalate (['\n'])
        (st2.errs ++ [("parse error: ").toList ++ r]))) := by
  have hdo : doParse drive newLexerWrapper =
      { st2 with errs := st2.errs ++ [("parse error: ").toList ++ r] } := by
    simp [doParse, h]
  refine ⟨rfl, ?_, ?_, ?_⟩
  · unfold queryStringStringToken
    by_cases h1 : (['/']).isPrefixOf str && List.isSuffixOf (['/']) str
    · rw [if_pos h1]
      have h2 : 2 ≤ str.length := by
        match str, hs with
        | [], hs => simp [List.isPrefixOf] at h1
        | [c], hs =>
          simp only [List.isPrefixOf, Bool.and_eq_true, beq_iff_eq] at h1
          exact absurd (by rw [h1.1.1]) hs
        | a :: b :: t, _ => simp
      rw [if_pos h2]
      simp
    · rw [if_neg h1]
      by_cases h3 : str.any (fun c => c = '*' || c = '?') <;> simp [h3]
  · simp only [ParseQueryString, if_neg hq, hdo]
    simp
  · simp only [ParseQueryString, if_neg hq, hdo]
    simp

/-- Witness for C10 at a concrete non-slash payload, panicking drive and
input. -/
theorem c10_slash_slice_panic_witness :
    queryStringStringToken (("f").toList) (['/']) = none ∧
    (queryStringStringToken (("f").toList) (("ab").toList)).isSome ∧
    (ParseQueryString (fun s => s)
      (fun s => (s, some (("slice bounds out of range").toList)))
      (("/").toList)).1 = none ∧
    (ParseQueryString (fun s => s)
      (fun s => (s, some (("slice bounds out of range").toList)))
      (("/").toList)).2 =
      some ((fun s => s) (List.intercalate (['\n'])
        (newLexerWrapper.errs ++
          [("parse error: ").toList ++ ("slice bounds out of range").toList]))) :=
  c10_slash_slice_panic (fun s => s) (("f").toList) (("ab").toList) _
    newLexerWrapper _ _ (by simp) rfl (by simp)

/-- C6: an empty boost suffix is lexed as the default numeral `1`, so
`term^` reduces to a clause whose base match node carries boost exactly
1.0, and `term^3` to one carrying boost exactly 3.0; a boost value whose
float64 parse fails makes `queryStringParseBoost` report
`invalid boost value: …`, which the `searchSuffix` action appends to the
error list. -/
theorem c6_boost_default_and_error (pf : GoStr → Except GoStr ℚ) :
    (pf (("1").toList) = .ok 1 →
      reducePart pf queryShould (queryStringStringToken [] (("term").toList))
        (some (lexSuffixPayload [])) newLexerWrapper =
      { newLexerWrapper with
          should := [some (Query.matchQ [] (("term").toList) 0 (some 1))] }) ∧
    (pf (("3").toList) = .ok 3 →
      reducePart pf queryShould (queryStringStringToken [] (("term").toList))
        (some (("3").toList)) newLexerWrapper =
      { newLexerWrapper with
          should := [some (Query.matchQ [] (("term").toList) 0 (some 3))] }) ∧
    (∀ payload e, pf payload = .error e →
      queryStringParseBoost pf payload =
        .error (("invalid boost value: ").toList ++ e) ∧
      ∀ errs, searchSuffix pf payload errs =
        (none, errs ++ [("invalid boost value: ").toList ++ e])) := by
  refine ⟨fun h1 => ?_, fun h3 => ?_, fun payload e he => ⟨?_, fun errs => ?_⟩⟩
  · have hp : pf (lexSuffixPayload []) = .ok 1 := h1
    simp [reducePart, searchSuffix, queryStringParseBoost, hp, searchPart,
      queryShould, clauseValue, clauseErrs, queryStringSetBoost,
      queryStringStringToken, newLexerWrapper, List.isPrefixOf]
  · have hp3 : pf (['3']) = .ok 3 := h3
    simp [reducePart, searchSuffix, queryStringParseBoost, hp3, searchPart,
      queryShould, clauseValue, clauseErrs, queryStringSetBoost,
      queryStringStringToken, newLexerWrapper, List.isPrefixOf]
  · simp [queryStringParseBoost, he]
  · simp [searchSuffix, queryStringParseBoost, he]

/-- Witness for C6 at a concrete float parser. -/
theorem c6_boost_default_and_error_witness :
    reducePart
      (fun s => if s = ("1").toList then .ok (1 : ℚ)
        else if s = ("3").toList then .ok (3 : ℚ) else .error (("syn").toList))
      queryShould (queryStringStringToken [] (("term").toList))
      (some (lexSuffixPayload [])) newLexerWrapper =
      { newLexerWrapper with
          should := [some (Query.matchQ [] (("term").toList) 0 (some 1))] } ∧
    queryStringParseBoost
      (fun s => if s = ("1").toList then .ok (1 : ℚ)
        else if s = ("3").toList then .ok (3 : ℚ) else .error (("syn").toList))
      (("bad").toList) =
      .error (("invalid boost value: ").toList ++ ("syn").toList) := by
  have h := c6_boost_default_and_error
    (fun s => if s = ("1").toList then .ok (1 : ℚ)
      else if s = ("3").toList then .ok (3 : ℚ) else .error (("syn").toList))
  exact ⟨h.1 (by simp), (h.2.2 (("bad").toList) (("syn").toList) (by simp)).1⟩

/-- C7 (amended): the fuzziness suffix of a fuzzy term production is
parsed as a float and converted by Go's `int(...)` to the edit distance
on the resulting fuzzy match node; the conversion equals truncation
toward zero exactly when the truncated value fits the 64-bit int range,
and always lands in that range (out of it the value is
implementation-dependent, so the exact-truncation reading of the claim
fails there); an empty suffix is lexed as the default numeral `1` so
`term~` yields fuzziness exactly 1 and `term~2` exactly 2, while an
unparsable suffix reports `invalid fuzziness value: …`. -/
theorem c7_fuzziness_trunc_int64_and_default (pf : GoStr → Except GoStr ℚ)
    (ovf : ℚ → Int) (field str fz : GoStr) :
    (∀ v, pf fz = .ok v →
      queryStringStringTokenFuzzy pf ovf field str fz =
        .ok (Query.matchQ field str (goIntOfFloat ovf v) none)) ∧
    (∀ v : ℚ, -(2 ^ 63) ≤ goTruncToInt v → goTruncToInt v < 2 ^ 63 →
      goIntOfFloat ovf v = goTruncToInt v) ∧
    (∀ v : ℚ, -(2 ^ 63) ≤ goIntOfFloat ovf v ∧ goIntOfFloat ovf v < 2 ^ 63) ∧
    (∀ e, pf fz = .error e →
      queryStringStringTokenFuzzy pf ovf field str fz =
        .error (("invalid fuzziness value: ").toList ++ e)) ∧
    (pf (("1").toList) = .ok 1 →
      queryStringStringTokenFuzzy pf ovf field str (lexSuffixPayload []) =
        .ok (Query.matchQ field str 1 none)) ∧
    (pf (("2").toList) = .ok 2 →
      queryStringStringTokenFuzzy pf ovf field str (("2").toList) =
        .ok (Query.matchQ field str 2 none)) := by
  have hin : ∀ v : ℚ, -(2 ^ 63) ≤ goTruncToInt v → goTruncToInt v < 2 ^ 63 →
      goIntOfFloat ovf v = goTruncToInt v := by
    intro v h1 h2
    unfold goIntOfFloat
    rw [if_pos ⟨h1, h2⟩]
  have hbnd : ∀ v : ℚ, -(2 ^ 63) ≤ goIntOfFloat ovf v ∧
      goIntOfFloat ovf v < 2 ^ 63 := by
    intro v
    unfold goIntOfFloat
    split
    · next hc => exact hc
    · next hc =>
      have h1 : 0 ≤ (ovf v) % (2 ^ 64) :=
        Int.emod_nonneg _ (by norm_num)
      have h2 : (ovf v) % (2 ^ 64) < 2 ^ 64 :=
        Int.emod_lt_of_pos _ (by norm_num)
      norm_num at h1 h2 ⊢
      omega
  refine ⟨fun v hv => ?_, hin, hbnd, fun e he => ?_, fun h1 => ?_, fun h2 => ?_⟩
  · simp [queryStringStringTokenFuzzy, hv]
  · simp [queryStringStringTokenFuzzy, he]
  · have hp : pf (lexSuffixPayload []) = .ok 1 := h1
    have hone : goIntOfFloat ovf 1 = 1 := by
      rw [hin 1 (by norm_num [goTruncToInt]) (by norm_num [goTruncToInt])]
      norm_num [goTruncToInt]
    simp only [queryStringStringTokenFuzzy, hp, hone]
  · have htwo : goIntOfFloat ovf 2 = 2 := by
      rw [hin 2 (by norm_num [goTruncToInt]) (by norm_num [goTruncToInt])]
      norm_num [goTruncToInt]
    simp only [queryStringStringTokenFuzzy, h2, htwo]

/-- Witness for C7 at a concrete float parser and implementation
function. -/
theorem c7_fuzziness_trunc_int64_and_default_witness :
    queryStringStringTokenFuzzy
      (fun s => if s = ("1").toList then .ok (1 : ℚ)
        else if s = ("2").toList then .ok (2 : ℚ) else .error (("syn").toList))
      (fun _ => 0)
      (("f").toList) (("watex").toList) (lexSuffixPayload []) =
      .ok (Query.matchQ (("f").toList) (("watex").toList) 1 none) ∧
    queryStringStringTokenFuzzy
      (fun s => if s = ("1").toList then .ok (1 : ℚ)
        else if s = ("2").toList then .ok (2 : ℚ) else .error (("syn").toList))
      (fun _ => 0)
      (("f").toList) (("watex").toList) (("2").toList) =
      .ok (Query.matchQ (("f").toList) (("watex").toList) 2 none) ∧
    queryStringStringTokenFuzzy
      (fun s => if s = ("1").toList then .ok (1 : ℚ)
        else if s = ("2").toList then .ok (2 : ℚ) else .error (("syn").toList))
      (fun _ => 0)
      (("f").toList) (("watex").toList) (("bad").toList) =
      .error (("invalid fuzziness value: ").toList ++ ("syn").toList) := by
  have h := c7_fuzziness_trunc_int64_and_default
    (fun s => if s = ("1").toList then .ok (1 : ℚ)
      else if s = ("2").toList then .ok (2 : ℚ) else .error (("syn").toList))
    (fun _ => 0)
    (("f").toList) (("watex").toList) (("bad").toList)
  exact ⟨h.2.2.2.2.1 (by simp), h.2.2.2.2.2 (by simp),
    h.2.2.2.1 (("syn").toList) (by simp)⟩

/-- C7 counterexample: a 20-digit fuzziness suffix (20 nines) parses
via float64 to exactly 1e20 with no error, but the truncation of 1e20
does not fit a 64-bit int, so Go's `int(...)` cannot return it — the
conversion is implementation-dependent (here the amd64-style saturation
to the minimal int64) and the resulting edit distance differs from the
exact truncation the claim asserts. -/
theorem c7_overflow_counterexample :
    queryStringStringTokenFuzzy
      (fun s => if s = ("99999999999999999999").toList then
        .ok ((100000000000000000000 : ℚ)) else .error [])
      (fun _ => 0)
      (("f").toList) (("term").toList) (("99999999999999999999").toList) =
      .ok (Query.matchQ (("f").toList) (("term").toList)
        (goIntOfFloat (fun _ => 0) (100000000000000000000 : ℚ)) none) ∧
    goIntOfFloat (fun _ => 0) (100000000000000000000 : ℚ) ≠
      goTruncToInt (100000000000000000000 : ℚ) := by
  constructor
  · simp [queryStringStringTokenFuzzy]
  · have ht : goTruncToInt (100000000000000000000 : ℚ) =
        100000000000000000000 := by
      norm_num [goTruncToInt]
    have hg : goIntOfFloat (fun _ => 0) (100000000000000000000 : ℚ) =
        -(2 ^ 63) := by
      unfold goIntOfFloat
      rw [if_neg (by rw [ht]; norm_num)]
      norm_num
    rw [hg, ht]
    norm_num

/-- Fields of the wrapper after reducing a list of search parts whose
`searchPrefix` values are the three legal constants: each list collects,
in encounter order, the clauses of the parts carrying its own value. -/
theorem runParts_fields (parts : List ParsedPart) (st : LexerWrapper)
    (h : ∀ p ∈ parts,
      p.pre = queryShould ∨ p.pre = queryMust ∨ p.pre = queryMustNot) :
    (runParts parts st).should =
      st.should ++ (parts.filter (fun p => p.pre == queryShould)).map
        (fun p => clauseValue p.base p.suf) ∧
    (runParts parts st).must =
      st.must ++ (parts.filter (fun p => p.pre == queryMust)).map
        (fun p => clauseValue p.base p.suf) ∧
    (runParts parts st).mustNot =
      st.mustNot ++ (parts.filter (fun p => p.pre == queryMustNot)).map
        (fun p => clauseValue p.base p.suf) := by
  induction parts generalizing st with
  | nil => simp [runParts]
  | cons p ps ih =>
    have hp := h p (List.mem_cons_self _ _)
    have hps : ∀ q ∈ ps,
        q.pre = queryShould ∨ q.pre = queryMust ∨ q.pre = queryMustNot :=
      fun q hq => h q (List.mem_cons_of_mem _ hq)
    have hstep : runParts (p :: ps) st =
        runParts ps (searchPart p.pre p.base p.suf st) := rfl
    obtain ⟨i1, i2, i3⟩ := ih (searchPart p.pre p.base p.suf st) hps
    refine ⟨?_, ?_, ?_⟩ <;> rw [hstep] <;>
      [rw [i1]; rw [i2]; rw [i3]] <;>
      rcases hp with h0 | h0 | h0 <;>
      simp [searchPart, h0, queryShould, queryMust, queryMustNot,
        List.filter_cons, List.append_assoc]

/-- Count of the three prefix-filtered sublists: a part with a legal
`searchPrefix` value lands in exactly one of them. -/
theorem filterPre_length (parts : List ParsedPart)
    (h : ∀ p ∈ parts,
      p.pre = queryShould ∨ p.pre = queryMust ∨ p.pre = queryMustNot) :
    (parts.filter (fun p => p.pre == queryShould)).length +
      (parts.filter (fun p => p.pre == queryMust)).length +
      (parts.filter (fun p => p.pre == queryMustNot)).length = parts.length := by
  induction parts with
  | nil => simp
  | cons p ps ih =>
    have hp := h p (List.mem_cons_self _ _)
    have ihs := ih (fun q hq => h q (List.mem_cons_of_mem _ hq))
    rcases hp with h0 | h0 | h0 <;>
      simp only [List.filter_cons, h0, queryShould, queryMust, queryMustNot,
        List.length_cons] at ihs ⊢ <;>
      simp <;> omega

/-- C3: over any successfully reduced list of search parts, each part
contributes exactly one clause to the single shared boolean result, the
clause landing in the should, must or mustNot list according to its
`searchPrefix` value, and within each list the clauses appear in the
order their parts were encountered. -/
theorem c3_prefix_routing (parts : List ParsedPart)
    (h : ∀ p ∈ parts,
      p.pre = queryShould ∨ p.pre = queryMust ∨ p.pre = queryMustNot) :
    (runParts parts newLexerWrapper).should =
      (parts.filter (fun p => p.pre == queryShould)).map
        (fun p => clauseValue p.base p.suf) ∧
    (runParts parts newLexerWrapper).must =
      (parts.filter (fun p => p.pre == queryMust)).map
        (fun p => clauseValue p.base p.suf) ∧
    (runParts parts newLexerWrapper).mustNot =
      (parts.filter (fun p => p.pre == queryMustNot)).map
        (fun p => clauseValue p.base p.suf) ∧
    (runParts parts newLexerWrapper).should.length +
      (runParts parts newLexerWrapper).must.length +
      (runParts parts newLexerWrapper).mustNot.length = parts.length := by
  obtain ⟨hs, hm, hn⟩ := runParts_fields parts newLexerWrapper h
  have hlen := filterPre_length parts h
  refine ⟨by simpa [newLexerWrapper] using hs,
    by simpa [newLexerWrapper] using hm,
    by simpa [newLexerWrapper] using hn, ?_⟩
  rw [hs, hm, hn]
  simpa [newLexerWrapper] using hlen

/-- Witness for C3 on the spec's three-clause example
`+field6:test3 -field7:test4 field8:test5`. -/
theorem c3_prefix_routing_witness :
    (runParts
      [⟨queryMust, some (Query.matchQ (("field6").toList) (("test3").toList) 0 none), none⟩,
       ⟨queryMustNot, some (Query.matchQ (("field7").toList) (("test4").toList) 0 none), none⟩,
       ⟨queryShould, some (Query.matchQ (("field8").toList) (("test5").toList) 0 none), none⟩]
      newLexerWrapper).should =
      [some (Query.matchQ (("field8").toList) (("test5").toList) 0 none)] ∧
    (runParts
      [⟨queryMust, some (Query.matchQ (("field6").toList) (("test3").toList) 0 none), none⟩,
       ⟨queryMustNot, some (Query.matchQ (("field7").toList) (("test4").toList) 0 none), none⟩,
       ⟨queryShould, some (Query.matchQ (("field8").toList) (("test5").toList) 0 none), none⟩]
      newLexerWrapper).must =
      [some (Query.matchQ (("field6").toList) (("test3").toList) 0 none)] ∧
    (runParts
      [⟨queryMust, some (Query.matchQ (("field6").toList) (("test3").toList) 0 none), none⟩,
       ⟨queryMustNot, some (Query.matchQ (("field7").toList) (("test4").toList) 0 none), none⟩,
       ⟨queryShould, some (Query.matchQ (("field8").toList) (("test5").toList) 0 none), none⟩]
      newLexerWrapper).mustNot =
      [some (Query.matchQ (("field7").toList) (("test4").toList) 0 none)] := by
  have h := c3_prefix_routing
    [⟨queryMust, some (Query.matchQ (("field6").toList) (("test3").toList) 0 none), none⟩,
     ⟨queryMustNot, some (Query.matchQ (("field7").toList) (("test4").toList) 0 none), none⟩,
     ⟨queryShould, some (Query.matchQ (("field8").toList) (("test5").toList) 0 none), none⟩]
    (by intro p hp
        simp only [List.mem_cons, List.not_mem_nil, or_false] at hp
        rcases hp with h1 | h1 | h1 <;> subst h1 <;> simp [queryShould, queryMust, queryMustNot])
  exact ⟨h.1.trans rfl, h.2.1.trans rfl, h.2.2.1.trans rfl⟩

end QueryStringModel
